import Mathlib

/-!
Verification development for the dragon-tiger fact-normalization core.

The Python source (src/core/data_processor.py and
src/core/Fund_battle_V1/funding_battle_builder.py) is shallowly embedded
here.  Modelling conventions:

* Python floats are modelled by `ℚ`.  All the predicates under scrutiny
  (sign tests, dedup equality, sorting comparisons) involve no
  floating-point rounding, and the concrete inputs used in the theorems
  are exactly representable, so `ℚ` is a faithful model.
* Python `round(x, n)` and the `.2f` / `,.2f` format specifiers round
  half-to-even; `rhe` below implements that on `ℚ`.
* Python dicts with fixed key sets are modelled as structures; the
  insertion-ordered `contribution_by_type` dict is an association list.
* `json.loads` of the registry `orgs` column is modelled by an
  `Option (List String)` field: `none` stands for a string that fails to
  parse (the `except (json.JSONDecodeError, AttributeError)` path).
* String scrubbing in the source only ever removes single-character
  substrings (`" "`, `"元"`, `","`, `"亿"`, `"万"`, `"%"`), which is
  modelled by filtering one character out of the character list.
-/

namespace DT

/-! ### String literal constants used by the source -/

def strWanYuan : String := "万元"
def strYiYuan : String := "亿元"
def zeroWanStr : String := "0.00万元"
def zeroPctStr : String := "0.00%"
def strPct : String := "%"
def markerStr : String := "机构专用"
def jigouStr : String := "机构"
def ordinaryStr : String := "普通席位"
def noInfoStr : String := "暂无相关信息"
def styleUnknownStr : String := "风格未明"
def famousStr : String := "知名游资"
def quantStr : String := "量化"
def duoFangStr : String := "多方"
def kongFangStr : String := "空方"
def pingJuStr : String := "平局"
def buySideStr : String := "buy"
def sellSideStr : String := "sell"
def netWanSuffix : String := "_net_wan"
def styleKeyStr : String := "风格画像"
def noDetailStr : String := "暂无详细信息"
def profileKey1 : String := "核心交易档案"
def profileKey2 : String := "标的选择偏好"
def profileKey3 : String := "盘中操盘密码"
def profileKey4 : String := "软实力与市场标签"
def emptyStr : String := ""
def dashStr : String := "-"

/-- Closed set of quant labels in `_determine_player_type`. -/
def quantNames : List String := ["量化抢筹", "量化打扮", "量化基金", "竞价抢筹"]

/-- Closed set of institution labels in `_determine_player_type`. -/
def institutionNames : List String :=
  ["深股通专用", "沪股通专用", "机构专用", "境外机构", "中信总部"]

/-! ### Character-list string helpers -/

/-- Does `n` occur as a prefix of `h` (character lists)? -/
def listStarts : List Char → List Char → Bool
  | [], _ => true
  | _ :: _, [] => false
  | a :: as, b :: bs => a == b && listStarts as bs

/-- Does `n` occur as a contiguous substring of `h`?  Models Python's
`n in h` on strings. -/
def listHasSub (n : List Char) : List Char → Bool
  | [] => n.isEmpty
  | c :: rest => listStarts n (c :: rest) || listHasSub n rest

/-- Python `needle in hay` for strings. -/
def containsSub (needle hay : String) : Bool :=
  listHasSub needle.data hay.data

/-- Python `s.replace(c, "")` for a single-character pattern `c`. -/
def removeChar (c : Char) (s : String) : String :=
  String.mk (s.data.filter (fun d => d ≠ c))

/-- Does the string contain the given character? -/
def hasChar (c : Char) (s : String) : Bool :=
  s.data.contains c

/-- Python `s.startswith("-")`. -/
def startsDash (s : String) : Bool :=
  match s.data with
  | c :: _ => c == '-'
  | [] => false

/-- Python `s[1:]`. -/
def dropFirstChar (s : String) : String :=
  String.mk s.data.tail

/-- Python `s.strip() == ""` (whitespace modelled as the space char). -/
def isBlank (s : String) : Bool :=
  s.data.all (fun c => c == ' ')

/-- Python `s.strip()` (whitespace modelled as the space char). -/
def trimSpaces (s : String) : String :=
  String.mk (((s.data.dropWhile (fun c => c == ' ')).reverse.dropWhile
    (fun c => c == ' ')).reverse)

/-! ### Decimal parsing and printing -/

/-- Numeric value of a list of decimal digit characters. -/
def digitsToNat (ds : List Char) : ℕ :=
  ds.foldl (fun a c => 10 * a + (c.toNat - 48)) 0

/-- Parse a plain decimal literal (optional sign, optional single dot) to a
rational; `none` models Python `float(...)` raising `ValueError`.  The
source only ever feeds such plain literals to `float`. -/
def parseFloatQ (s : String) : Option ℚ :=
  let cs := s.data
  let signed : Bool × List Char :=
    match cs with
    | '-' :: r => (true, r)
    | '+' :: r => (false, r)
    | _ => (false, cs)
  let neg := signed.1
  let body := signed.2
  let ip := body.takeWhile (fun c => c ≠ '.')
  let rest := body.dropWhile (fun c => c ≠ '.')
  let fp : Option (List Char) :=
    match rest with
    | [] => some []
    | _ :: r => if r.contains '.' then none else some r
  match fp with
  | none => none
  | some f =>
    if (ip ++ f).isEmpty then none
    else if (ip ++ f).all Char.isDigit then
      let v : ℚ := (digitsToNat ip : ℚ) + (digitsToNat f : ℚ) / (10 : ℚ) ^ f.length
      some (if neg then -v else v)
    else none

/-- Round half to even to the nearest integer (Python `round` / IEEE
default rounding of an exactly represented value). -/
def rhe (q : ℚ) : ℤ :=
  if q - ⌊q⌋ < 1 / 2 then ⌊q⌋
  else if 1 / 2 < q - ⌊q⌋ then ⌊q⌋ + 1
  else if 2 ∣ ⌊q⌋ then ⌊q⌋ else ⌊q⌋ + 1

/-- Python `round(x, 1)`. -/
def round1 (q : ℚ) : ℚ := (rhe (q * 10) : ℚ) / 10

/-- Python `round(x, 2)`. -/
def round2 (q : ℚ) : ℚ := (rhe (q * 100) : ℚ) / 100

/-- Insert thousands-separator commas into a digit list. -/
def group3Aux : List Char → ℕ → List Char
  | [], _ => []
  | c :: rest, k =>
    if 0 < k ∧ k % 3 = 0 then ',' :: c :: group3Aux rest (k + 1)
    else c :: group3Aux rest (k + 1)

/-- Thousands grouping of a most-significant-first digit list. -/
def group3 (ds : List Char) : List Char :=
  (group3Aux ds.reverse 0).reverse

/-- Two-digit zero-padded rendering of `n < 100`. -/
def twoDigits (n : ℕ) : List Char :=
  if n < 10 then '0' :: Nat.toDigits 10 n else Nat.toDigits 10 n

/-- Python `f"{x:,.2f}"`: half-even rounding to two decimals, thousands
separators, explicit sign for negative values. -/
def fmt2 (x : ℚ) : String :=
  let n := (rhe (|x| * 100)).toNat
  let sign := if x < 0 then dashStr else emptyStr
  sign ++ String.mk (group3 (Nat.toDigits 10 (n / 100))) ++
    String.mk ['.'] ++ String.mk (twoDigits (n % 100))

/-- Python `f"{x:.2f}"`: as `fmt2` but without thousands grouping. -/
def fmtF2 (x : ℚ) : String :=
  let n := (rhe (|x| * 100)).toNat
  let sign := if x < 0 then dashStr else emptyStr
  sign ++ String.mk (Nat.toDigits 10 (n / 100)) ++
    String.mk ['.'] ++ String.mk (twoDigits (n % 100))

/-! ### `DataProcessor._format_amount` and `_format_percentage` -/

/-- `DataProcessor._format_amount`: yuan to a `万元`/`亿元` display string.
`pd.isna` has no analogue in `ℚ` and is dropped; the `amount == 0` branch
is kept. -/
def formatAmount (amount : ℚ) : String :=
  if amount = 0 then zeroWanStr
  else if amount < 10000000 then fmt2 (amount / 10000) ++ strWanYuan
  else fmt2 (amount / 100000000) ++ strYiYuan

/-- `DataProcessor._format_percentage`. -/
def formatPercentage (p : ℚ) : String :=
  fmtF2 (round2 p) ++ strPct

/-! ### `FundingBattleBuilder.parse_amount_to_wan` and `parse_percentage` -/

/-- `FundingBattleBuilder.parse_amount_to_wan`: amount display string to a
万元 value; parse failures degrade to `0.0`. -/
def parseAmountToWan (s : String) : ℚ :=
  if s = emptyStr ∨ isBlank s then 0
  else
    let clean := removeChar ',' (removeChar '元' (removeChar ' ' s))
    if hasChar '亿' clean then
      match parseFloatQ (removeChar '亿' clean) with
      | some v => v * 10000
      | none => 0
    else if hasChar '万' clean then
      match parseFloatQ (removeChar '万' clean) with
      | some v => v
      | none => 0
    else
      match parseFloatQ clean with
      | some v => v
      | none => 0

/-- `FundingBattleBuilder.parse_percentage`. -/
def parsePercentage (s : String) : ℚ :=
  if s = emptyStr ∨ isBlank s then 0
  else
    match parseFloatQ (trimSpaces (removeChar '%' s)) with
    | some v => v
    | none => 0

/-! ### Player registry and `_identify_player` -/

/-- One row of the famous-trader registry (`hm_list_df`).  `orgs` is the
parsed alias list; `none` models a row whose `orgs` string fails to parse
as JSON (skipped by the `except` clause in `_identify_player`). -/
structure HmEntry where
  name : String
  desc : String
  orgs : Option (List String)
deriving DecidableEq

/-- One row of the curated style-profile table (`self.player_profiles`). -/
structure ProfileData where
  profile : String
  preference : String
  code : String
  reputation : String
deriving DecidableEq

/-- The style field of a player info dict: either the default tag list or
the dict built by `_get_player_style_from_profile`. -/
inductive StyleVal where
  | tags (l : List String)
  | info (fields : List (String × String))
deriving DecidableEq

/-- The `player_info` dict attached to each seat. -/
structure PlayerInfo where
  name : String
  type : String
  description : String
  style : StyleVal
deriving DecidableEq

/-- `DataProcessor._determine_player_type`. -/
def determinePlayerType (name _descr : String) : String :=
  if name ∈ quantNames then quantStr
  else if name ∈ institutionNames then jigouStr
  else famousStr

/-- `DataProcessor._get_player_style_from_profile`: look up the curated
profile table, keep the non-empty fields, fall back to the placeholder. -/
def getPlayerStyleFromProfile (profiles : List (String × ProfileData))
    (playerName : String) : StyleVal :=
  match profiles.lookup playerName with
  | some pd =>
    let fields := [(profileKey1, pd.profile), (profileKey2, pd.preference),
      (profileKey3, pd.code), (profileKey4, pd.reputation)]
    let nonEmpty := fields.filter (fun kv => kv.2 ≠ emptyStr)
    if nonEmpty = [] then StyleVal.info [(styleKeyStr, noDetailStr)]
    else StyleVal.info nonEmpty
  | none => StyleVal.info [(styleKeyStr, noDetailStr)]

/-- The default `player_info` dict built at the top of
`_identify_player`: the type is the literal string `"机构专用"` when the
seat name contains that marker, else `"普通席位"`. -/
def defaultPlayerInfo (seatName : String) : PlayerInfo :=
  { name := ordinaryStr
  , type := if containsSub markerStr seatName then markerStr else ordinaryStr
  , description := noInfoStr
  , style := StyleVal.tags [styleUnknownStr] }

/-- Bidirectional substring test used on each registry alias:
`org in seat_name or seat_name in org`. -/
def orgMatches (seatName org : String) : Bool :=
  containsSub org seatName || containsSub seatName org

/-- The registry scan loop of `_identify_player`, carrying the current
`player_info`; after an alias match the loop breaks unless the type is
still one of the two default labels (which `_determine_player_type`
never returns). -/
def identifyLoop (seatName : String) (profiles : List (String × ProfileData))
    (pi : PlayerInfo) : List HmEntry → PlayerInfo
  | [] => pi
  | e :: rest =>
    match e.orgs with
    | none => identifyLoop seatName profiles pi rest
    | some orgs =>
      let pi2 :=
        match orgs.find? (fun org => orgMatches seatName org) with
        | some _ =>
          { name := e.name
          , type := determinePlayerType e.name e.desc
          , description := e.desc
          , style := getPlayerStyleFromProfile profiles e.name }
        | none => pi
      if pi2.type = ordinaryStr ∨ pi2.type = markerStr then
        identifyLoop seatName profiles pi2 rest
      else pi2

/-- `DataProcessor._identify_player`. -/
def identifyPlayer (seatName : String) (hm : List HmEntry)
    (profiles : List (String × ProfileData)) : PlayerInfo :=
  identifyLoop seatName profiles (defaultPlayerInfo seatName) hm

/-! ### Seat rows, dedup, sort and partition (`_process_seat_data`) -/

/-- One raw seat row of `top_data_df` (columns the source touches). -/
structure RawSeatRow where
  exalter : String
  buy : ℚ
  sell : ℚ
  net_buy : ℚ
  buy_rate : ℚ
  sell_rate : ℚ
  reason : String
deriving DecidableEq

/-- The dedup key of `drop_duplicates(subset=[...])`: everything except
the listing reason. -/
def dkey (r : RawSeatRow) : String × ℚ × ℚ × ℚ × ℚ × ℚ :=
  (r.exalter, r.buy, r.sell, r.net_buy, r.buy_rate, r.sell_rate)

/-- First-occurrence dedup with an accumulator of already-seen keys;
models `DataFrame.drop_duplicates(subset=...)`. -/
def dedupAux : List (String × ℚ × ℚ × ℚ × ℚ × ℚ) → List RawSeatRow →
    List RawSeatRow
  | _, [] => []
  | seen, r :: rest =>
    if dkey r ∈ seen then dedupAux seen rest
    else r :: dedupAux (dkey r :: seen) rest

/-- Deduplicate seat rows by `dkey`, keeping first occurrences in order. -/
def dedupRows (rows : List RawSeatRow) : List RawSeatRow :=
  dedupAux [] rows

/-- Insert into a list kept descending by `net_buy`. -/
def insertDesc (r : RawSeatRow) : List RawSeatRow → List RawSeatRow
  | [] => [r]
  | x :: xs => if x.net_buy < r.net_buy then r :: x :: xs else x :: insertDesc r xs

/-- `sort_values('net_buy', ascending=False)`: sort descending by
`net_buy` (insertion sort; the claims do not depend on tie order). -/
def sortRows : List RawSeatRow → List RawSeatRow :=
  List.foldr insertDesc []

/-- The per-seat dict built inside the `_process_seat_data` loop. -/
structure SeatInfo where
  seat_name : String
  buy_amount : String
  sell_amount : String
  net_amount : String
  buy_rate : String
  sell_rate : String
  player_info : PlayerInfo
deriving DecidableEq

/-- Build the formatted `seat_info` dict for one deduplicated row. -/
def seatInfoOf (hm : List HmEntry) (profiles : List (String × ProfileData))
    (r : RawSeatRow) : SeatInfo :=
  { seat_name := r.exalter
  , buy_amount := formatAmount (max 0 r.buy)
  , sell_amount := formatAmount (max 0 r.sell)
  , net_amount := formatAmount r.net_buy
  , buy_rate := formatPercentage (max 0 r.buy_rate)
  , sell_rate := formatPercentage (max 0 r.sell_rate)
  , player_info := identifyPlayer r.exalter hm profiles }

/-- The classification loop of `_process_seat_data`: walk the sorted rows
in order, appending each formatted seat to the buy list when
`net_buy > 0` and to the sell list otherwise. -/
def partitionLoop (hm : List HmEntry) (profiles : List (String × ProfileData)) :
    List RawSeatRow → List SeatInfo × List SeatInfo
  | [] => ([], [])
  | r :: rest =>
    let p := partitionLoop hm profiles rest
    if 0 < r.net_buy then (seatInfoOf hm profiles r :: p.1, p.2)
    else (p.1, seatInfoOf hm profiles r :: p.2)

/-- The `seat_data` dict returned by `_process_seat_data`. -/
structure SeatData where
  buy_seats : List SeatInfo
  sell_seats : List SeatInfo
  buy_total : String
  sell_total : String
deriving DecidableEq

/-- `DataProcessor._process_seat_data` for one stock's rows. -/
def processSeatData (rows : List RawSeatRow) (hm : List HmEntry)
    (profiles : List (String × ProfileData)) : SeatData :=
  if rows = [] then
    { buy_seats := [], sell_seats := [], buy_total := zeroWanStr
    , sell_total := zeroWanStr }
  else
    let sorted := sortRows (dedupRows rows)
    let p := partitionLoop hm profiles sorted
    { buy_seats := p.1
    , sell_seats := p.2
    , buy_total := formatAmount (sorted.map (fun r => max 0 r.buy)).sum
    , sell_total := formatAmount (sorted.map (fun r => max 0 r.sell)).sum }

/-! ### `FundingBattleBuilder.calculate_concentration_metrics` -/

/-- The three concentration percentages. -/
structure ConcMetrics where
  top1_pct : ℚ
  top2_pct : ℚ
  top5_pct : ℚ
deriving DecidableEq

/-- Insert into a rational list kept descending. -/
def insertDescQ (a : ℚ) : List ℚ → List ℚ
  | [] => [a]
  | x :: xs => if x < a then a :: x :: xs else x :: insertDescQ a xs

/-- Python `sorted(amounts, reverse=True)`. -/
def sortDescQ : List ℚ → List ℚ :=
  List.foldr insertDescQ []

/-- `FundingBattleBuilder.calculate_concentration_metrics`. -/
def calculateConcentrationMetrics (amounts : List ℚ) : ConcMetrics :=
  if amounts = [] then { top1_pct := 0, top2_pct := 0, top5_pct := 0 }
  else
    let sorted := sortDescQ amounts
    let total := amounts.sum
    if total = 0 then { top1_pct := 0, top2_pct := 0, top5_pct := 0 }
    else
      let top1 := if 1 ≤ sorted.length then sorted.headD 0 / total * 100 else 0
      let top2Sum := if 2 ≤ sorted.length then (sorted.take 2).sum else sorted.sum
      let top5Sum := if 5 ≤ sorted.length then (sorted.take 5).sum else sorted.sum
      { top1_pct := round1 top1
      , top2_pct := round1 (top2Sum / total * 100)
      , top5_pct := round1 (top5Sum / total * 100) }

/-! ### `FundingBattleBuilder.analyze_side_data` -/

/-- One entry of the `players` list built by `analyze_side_data`.
The dict key `"type"` is the field `type`; `"name"` is `name`. -/
structure PlayerData where
  seat_name : String
  net_amount : String
  buy : String
  sell : String
  buy_rate : String
  sell_rate : String
  net_rate : String
  type : String
  name : String
  description : String
  style : StyleVal
deriving DecidableEq

/-- One side's analysis result (`analyze_side_data` return dict). -/
structure SideFacts where
  total_amount_wan : ℚ
  player_count : ℕ
  famous_player_count : ℕ
  concentration_metrics : ConcMetrics
  contribution_by_type : List (String × ℚ)
  players : List PlayerData
deriving DecidableEq

/-- The per-seat amount string used by `analyze_side_data`: the raw
`net_amount` on the buy side, the `net_amount` with a leading `-`
stripped on the sell side. -/
def sideAmountStr (sideType : String) (s : SeatInfo) : String :=
  if sideType = buySideStr then s.net_amount
  else if startsDash s.net_amount then dropFirstChar s.net_amount
  else s.net_amount

/-- Insertion-ordered accumulation into `contribution_by_type`. -/
def upsert (k : String) (v : ℚ) : List (String × ℚ) → List (String × ℚ)
  | [] => [(k, v)]
  | kv :: rest => if kv.1 = k then (kv.1, kv.2 + v) :: rest else kv :: upsert k v rest

/-- The `player_data` dict built for one seat inside the
`analyze_side_data` loop. -/
def playerDataOf (sideType : String) (s : SeatInfo) : PlayerData :=
  let amountWan := parseAmountToWan (sideAmountStr sideType s)
  { seat_name := s.seat_name
  , net_amount := s.net_amount
  , buy := s.buy_amount
  , sell := s.sell_amount
  , buy_rate := s.buy_rate
  , sell_rate := s.sell_rate
  , net_rate := if 0 < amountWan then fmtF2 (amountWan / 10000) ++ strPct
      else zeroPctStr
  , type := s.player_info.type
  , name := s.player_info.name
  , description := s.player_info.description
  , style := s.player_info.style }

/-- `FundingBattleBuilder.analyze_side_data`. -/
def analyzeSideData (seats : List SeatInfo) (sideType : String) : SideFacts :=
  if seats = [] then
    { total_amount_wan := 0, player_count := 0, famous_player_count := 0
    , concentration_metrics := { top1_pct := 0, top2_pct := 0, top5_pct := 0 }
    , contribution_by_type := [], players := [] }
  else
    let amounts := seats.map (fun s => parseAmountToWan (sideAmountStr sideType s))
    let contrib := seats.foldl
      (fun acc s => upsert s.player_info.type
        (parseAmountToWan (sideAmountStr sideType s)) acc) []
    { total_amount_wan := round1 amounts.sum
    , player_count := seats.length
    , famous_player_count :=
        (seats.filter (fun s => s.player_info.type = famousStr)).length
    , concentration_metrics := calculateConcentrationMetrics amounts
    , contribution_by_type := contrib.map (fun kv => (kv.1 ++ netWanSuffix, round1 kv.2))
    , players := seats.map (playerDataOf sideType) }

/-! ### `FundingBattleBuilder.calculate_battle_metrics` -/

/-- The `basic_info` block; the core only reads `amount_rate` and passes
the block through verbatim. -/
structure BasicInfo where
  amount_rate : String
deriving DecidableEq

/-- The battle-metrics dict. -/
structure BattleFacts where
  net_advantage_wan : ℚ
  winner : String
  net_advantage_pct : ℚ
  on_list_turnover_pct : ℚ
deriving DecidableEq

/-- `FundingBattleBuilder.calculate_battle_metrics`. -/
def calculateBattleMetrics (longSide shortSide : SideFacts)
    (basicInfo : BasicInfo) : BattleFacts :=
  let longAmount := longSide.total_amount_wan
  let shortAmount := shortSide.total_amount_wan
  let netAdvantageWan := longAmount - shortAmount
  let winner :=
    if 0 < netAdvantageWan then duoFangStr
    else if netAdvantageWan < 0 then kongFangStr
    else pingJuStr
  let totalAmount := longAmount + shortAmount
  let netAdvantagePct :=
    if 0 < totalAmount then |netAdvantageWan| / totalAmount * 100 else 0
  { net_advantage_wan := round1 netAdvantageWan
  , winner := winner
  , net_advantage_pct := round1 netAdvantagePct
  , on_list_turnover_pct := round1 (parsePercentage basicInfo.amount_rate) }

/-! ### `FundingBattleBuilder.build_structured_facts` -/

/-- One stock entry of the raw container. -/
structure Stock where
  ts_code : String
  name : String
  basic_info : BasicInfo
  seat_data : SeatData
deriving DecidableEq

/-- The raw container; `raw_data.get("stocks", [])` makes a missing
`stocks` key indistinguishable from an empty list, so the model carries
the list directly. -/
structure RawData where
  stocks : List Stock
deriving DecidableEq

/-- The final structured-facts object. -/
structure StructuredFacts where
  ts_code : String
  name : String
  raw_basic_info : BasicInfo
  long_side_facts : SideFacts
  short_side_facts : SideFacts
  battle_facts : BattleFacts
deriving DecidableEq

/-- `FundingBattleBuilder.build_structured_facts`; `none` models the
falsy empty dict returned when no stock is present. -/
def buildStructuredFacts (rawData : RawData) : Option StructuredFacts :=
  match rawData.stocks with
  | [] => none
  | stockData :: _ =>
    let longSideFacts := analyzeSideData stockData.seat_data.buy_seats buySideStr
    let shortSideFacts := analyzeSideData stockData.seat_data.sell_seats sellSideStr
    some
      { ts_code := stockData.ts_code
      , name := stockData.name
      , raw_basic_info := stockData.basic_info
      , long_side_facts := longSideFacts
      , short_side_facts := shortSideFacts
      , battle_facts :=
          calculateBattleMetrics longSideFacts shortSideFacts stockData.basic_info }

/-! ### Helper lemmas: partition, sort, dedup -/

theorem partitionLoop_fst (hm : List HmEntry) (ps : List (String × ProfileData)) :
    ∀ l : List RawSeatRow, (partitionLoop hm ps l).1 =
      (l.filter (fun r => decide (0 < r.net_buy))).map (seatInfoOf hm ps)
  | [] => rfl
  | r :: rest => by
    by_cases h : 0 < r.net_buy <;>
      simp [partitionLoop, List.filter_cons, h, partitionLoop_fst hm ps rest]

theorem partitionLoop_snd (hm : List HmEntry) (ps : List (String × ProfileData)) :
    ∀ l : List RawSeatRow, (partitionLoop hm ps l).2 =
      (l.filter (fun r => !decide (0 < r.net_buy))).map (seatInfoOf hm ps)
  | [] => rfl
  | r :: rest => by
    by_cases h : 0 < r.net_buy <;>
      simp [partitionLoop, List.filter_cons, h, partitionLoop_snd hm ps rest]

theorem length_filter_add_length_filter_not {α : Type} (l : List α) (p : α → Bool) :
    (l.filter p).length + (l.filter (fun a => !p a)).length = l.length := by
  induction l with
  | nil => rfl
  | cons a t ih =>
    by_cases h : p a <;> simp [List.filter_cons, h, ← ih] <;> omega

theorem insertDesc_perm (r : RawSeatRow) :
    ∀ l : List RawSeatRow, (insertDesc r l).Perm (r :: l)
  | [] => List.Perm.refl _
  | x :: xs => by
    unfold insertDesc
    by_cases h : x.net_buy < r.net_buy
    · simp [h]
    · simp only [if_neg h]
      exact ((insertDesc_perm r xs).cons x).trans (List.Perm.swap r x xs)

theorem sortRows_perm : ∀ l : List RawSeatRow, (sortRows l).Perm l
  | [] => List.Perm.refl _
  | r :: rest => (insertDesc_perm r (sortRows rest)).trans ((sortRows_perm rest).cons r)

theorem sortRows_length (l : List RawSeatRow) : (sortRows l).length = l.length :=
  (sortRows_perm l).length_eq

theorem mem_insertDesc {a r : RawSeatRow} {l : List RawSeatRow} :
    a ∈ insertDesc r l ↔ a = r ∨ a ∈ l := by
  rw [(insertDesc_perm r l).mem_iff, List.mem_cons]

theorem insertDesc_sorted (r : RawSeatRow) {l : List RawSeatRow}
    (h : l.Pairwise (fun a b => b.net_buy ≤ a.net_buy)) :
    (insertDesc r l).Pairwise (fun a b => b.net_buy ≤ a.net_buy) := by
  induction l with
  | nil => simp [insertDesc]
  | cons x xs ih =>
    rw [List.pairwise_cons] at h
    unfold insertDesc
    by_cases hc : x.net_buy < r.net_buy
    · rw [if_pos hc, List.pairwise_cons]
      refine ⟨?_, List.pairwise_cons.mpr h⟩
      intro y hy
      rcases List.mem_cons.mp hy with hy | hy
      · exact hy ▸ le_of_lt hc
      · exact le_trans (h.1 y hy) (le_of_lt hc)
    · rw [if_neg hc, List.pairwise_cons]
      refine ⟨?_, ih h.2⟩
      intro y hy
      rcases mem_insertDesc.mp hy with hy | hy
      · exact hy ▸ le_of_not_lt hc
      · exact h.1 y hy

theorem sortRows_sorted :
    ∀ l : List RawSeatRow, (sortRows l).Pairwise (fun a b => b.net_buy ≤ a.net_buy)
  | [] => List.Pairwise.nil
  | r :: rest => insertDesc_sorted r (sortRows_sorted rest)

theorem dedupAux_sublist :
    ∀ (seen : List (String × ℚ × ℚ × ℚ × ℚ × ℚ)) (l : List RawSeatRow),
      (dedupAux seen l).Sublist l
  | _, [] => List.Sublist.refl _
  | seen, r :: rest => by
    unfold dedupAux
    by_cases h : dkey r ∈ seen
    · exact (if_pos h) ▸ (dedupAux_sublist seen rest).cons r
    · exact (if_neg h) ▸ (dedupAux_sublist (dkey r :: seen) rest).cons₂ r

theorem dedupAux_keys (seen : List (String × ℚ × ℚ × ℚ × ℚ × ℚ)) :
    ∀ l : List RawSeatRow,
      ((dedupAux seen l).map dkey).Nodup ∧
        ∀ k ∈ (dedupAux seen l).map dkey, k ∉ seen := by
  intro l
  induction l generalizing seen with
  | nil => exact ⟨List.nodup_nil, by simp [dedupAux]⟩
  | cons r rest ih =>
    unfold dedupAux
    by_cases h : dkey r ∈ seen
    · rw [if_pos h]; exact ih seen
    · rw [if_neg h]
      obtain ⟨hnd, hdisj⟩ := ih (dkey r :: seen)
      refine ⟨List.nodup_cons.mpr ⟨?_, hnd⟩, ?_⟩
      · intro hmem
        exact (hdisj _ hmem) (List.mem_cons_self _ _)
      · intro k hk
        rcases List.mem_cons.mp hk with hk | hk
        · exact hk ▸ h
        · intro hks
          exact (hdisj k hk) (List.mem_cons_of_mem _ hks)

theorem dedupAux_eq_self (seen : List (String × ℚ × ℚ × ℚ × ℚ × ℚ)) :
    ∀ l : List RawSeatRow, (l.map dkey).Nodup →
      (∀ k ∈ l.map dkey, k ∉ seen) → dedupAux seen l = l := by
  intro l
  induction l generalizing seen with
  | nil => intro _ _; rfl
  | cons r rest ih =>
    intro hnd hdisj
    rw [List.map_cons, List.nodup_cons] at hnd
    unfold dedupAux
    rw [if_neg (hdisj (dkey r) (by simp))]
    congr 1
    refine ih (dkey r :: seen) hnd.2 ?_
    intro k hk
    rw [List.mem_cons]
    push_neg
    exact ⟨fun he => hnd.1 (he ▸ hk), hdisj k (by simp [hk])⟩

theorem dedupRows_idem (rows : List RawSeatRow) :
    dedupRows (dedupRows rows) = dedupRows rows :=
  dedupAux_eq_self [] (dedupRows rows) (dedupAux_keys [] rows).1 (by simp)

theorem dedupAux_length (seen : List (String × ℚ × ℚ × ℚ × ℚ × ℚ)) :
    ∀ l : List RawSeatRow, (dedupAux seen l).length =
      ((l.map dkey).toFinset \ seen.toFinset).card := by
  intro l
  induction l generalizing seen with
  | nil => simp [dedupAux]
  | cons r rest ih =>
    unfold dedupAux
    by_cases h : dkey r ∈ seen
    · rw [if_pos h, ih seen, List.map_cons, List.toFinset_cons,
        Finset.insert_sdiff_of_mem _ (List.mem_toFinset.mpr h)]
    · rw [if_neg h, List.length_cons, ih (dkey r :: seen), List.map_cons]
      simp only [List.toFinset_cons]
      have ha : dkey r ∉ seen.toFinset := fun hc => h (List.mem_toFinset.mp hc)
      rw [Finset.insert_sdiff_of_not_mem _ ha]
      have h1 : (rest.map dkey).toFinset \ insert (dkey r) seen.toFinset =
          ((rest.map dkey).toFinset \ seen.toFinset).erase (dkey r) := by
        ext k
        simp only [Finset.mem_sdiff, Finset.mem_insert, Finset.mem_erase,
          List.mem_toFinset]
        tauto
      have h2 : insert (dkey r) ((rest.map dkey).toFinset \ seen.toFinset) =
          insert (dkey r) (((rest.map dkey).toFinset \ seen.toFinset).erase (dkey r)) := by
        ext k
        simp only [Finset.mem_insert, Finset.mem_erase]
        tauto
      rw [h1, h2, Finset.card_insert_of_not_mem (Finset.not_mem_erase _ _)]

theorem dedupRows_length (rows : List RawSeatRow) :
    (dedupRows rows).length = (rows.map dkey).toFinset.card := by
  simpa using dedupAux_length [] rows

/-! ### Helper lemmas: half-even rounding -/

theorem floor_le_rhe (q : ℚ) : ⌊q⌋ ≤ rhe q := by
  unfold rhe
  split_ifs <;> omega

theorem rhe_le_floor_add_one (q : ℚ) : rhe q ≤ ⌊q⌋ + 1 := by
  unfold rhe
  split_ifs <;> omega

theorem rhe_intCast (n : ℤ) : rhe (n : ℚ) = n := by
  unfold rhe
  rw [Int.floor_intCast]
  norm_num

theorem rhe_mono {a b : ℚ} (hab : a ≤ b) : rhe a ≤ rhe b := by
  rcases lt_or_eq_of_le (Int.floor_le_floor hab) with hf | hf
  · calc rhe a ≤ ⌊a⌋ + 1 := rhe_le_floor_add_one a
      _ ≤ ⌊b⌋ := by omega
      _ ≤ rhe b := floor_le_rhe b
  · have hfr : a - (⌊b⌋ : ℚ) ≤ b - (⌊b⌋ : ℚ) := by linarith
    unfold rhe
    rw [hf]
    split_ifs <;> first | omega | linarith

theorem round1_mono {a b : ℚ} (hab : a ≤ b) : round1 a ≤ round1 b := by
  unfold round1
  have h := rhe_mono (mul_le_mul_of_nonneg_right hab (by norm_num : (0 : ℚ) ≤ 10))
  have h2 : ((rhe (a * 10) : ℤ) : ℚ) ≤ ((rhe (b * 10) : ℤ) : ℚ) := Int.cast_le.mpr h
  linarith

theorem round1_zero : round1 0 = 0 := by
  have h : ((0 : ℤ) : ℚ) * 10 = ((0 : ℤ) : ℚ) := by norm_num
  unfold round1
  rw [show ((0 : ℚ) * 10) = ((0 : ℤ) : ℚ) by norm_num, rhe_intCast]
  norm_num

theorem round1_nonneg {q : ℚ} (h : 0 ≤ q) : 0 ≤ round1 q := by
  have := round1_mono h
  rw [round1_zero] at this
  exact this

theorem round1_hundred : round1 100 = 100 := by
  unfold round1
  rw [show ((100 : ℚ) * 10) = ((1000 : ℤ) : ℚ) by norm_num, rhe_intCast]
  norm_num

theorem round1_le_hundred {q : ℚ} (h : q ≤ 100) : round1 q ≤ 100 := by
  have := round1_mono h
  rw [round1_hundred] at this
  exact this

/-! ### Helper lemmas: rational sorting and sums -/

theorem insertDescQ_perm (a : ℚ) : ∀ l : List ℚ, (insertDescQ a l).Perm (a :: l)
  | [] => List.Perm.refl _
  | x :: xs => by
    unfold insertDescQ
    by_cases h : x < a
    · simp [h]
    · simp only [if_neg h]
      exact ((insertDescQ_perm a xs).cons x).trans (List.Perm.swap a x xs)

theorem sortDescQ_perm : ∀ l : List ℚ, (sortDescQ l).Perm l
  | [] => List.Perm.refl _
  | a :: rest => (insertDescQ_perm a (sortDescQ rest)).trans ((sortDescQ_perm rest).cons a)

theorem sortDescQ_length (l : List ℚ) : (sortDescQ l).length = l.length :=
  (sortDescQ_perm l).length_eq

theorem sortDescQ_sum (l : List ℚ) : (sortDescQ l).sum = l.sum :=
  (sortDescQ_perm l).sum_eq

theorem sortDescQ_mem {a : ℚ} {l : List ℚ} (h : a ∈ sortDescQ l) : a ∈ l :=
  (sortDescQ_perm l).mem_iff.mp h

theorem list_sum_nonneg {l : List ℚ} (h : ∀ a ∈ l, 0 ≤ a) : 0 ≤ l.sum := by
  induction l with
  | nil => simp
  | cons a t ih =>
    rw [List.sum_cons]
    have := h a (by simp)
    have := ih (fun b hb => h b (by simp [hb]))
    linarith

theorem sum_take_le_sum {l : List ℚ} (h : ∀ a ∈ l, 0 ≤ a) (k : ℕ) :
    (l.take k).sum ≤ l.sum := by
  have hsplit : (l.take k).sum + (l.drop k).sum = l.sum := by
    rw [← List.sum_append, List.take_append_drop]
  have hdrop : 0 ≤ (l.drop k).sum :=
    list_sum_nonneg (fun a ha => h a ((List.drop_sublist k l).mem ha))
  linarith

theorem sum_take_mono {l : List ℚ} (h : ∀ a ∈ l, 0 ≤ a) {j k : ℕ} (hjk : j ≤ k) :
    (l.take j).sum ≤ (l.take k).sum := by
  have h1 : l.take j = (l.take k).take j := by
    rw [List.take_take, Nat.min_eq_left hjk]
  rw [h1]
  exact sum_take_le_sum (fun a ha => h a ((List.take_sublist k l).mem ha)) j

/-! ### Helper lemmas: builder pass-through -/

theorem analyzeSideData_players_length (seats : List SeatInfo) (t : String) :
    (analyzeSideData seats t).players.length = seats.length := by
  unfold analyzeSideData
  by_cases h : seats = [] <;> simp [h]

theorem analyzeSideData_players_names (seats : List SeatInfo) (t : String) :
    (analyzeSideData seats t).players.map PlayerData.seat_name =
      seats.map SeatInfo.seat_name := by
  unfold analyzeSideData
  by_cases h : seats = [] <;> simp [h, playerDataOf]

/-! ### Concrete inputs used in counterexamples and witnesses -/

def seatNameA : String := "东方财富证券拉萨团结路第一营业部"
def seatNameZ : String := "国泰君安证券总部"
def reasonA : String := "放量上涨"
def reasonB : String := "换手率达20%"
def tsCodeA : String := "000001.SZ"
def stockNameA : String := "测试股份"
def strNeg500 : String := "-500.00万元"
def strNeg100 : String := "-100.00万元"
def strNeg300 : String := "-300.00万元"

def rowDup1 : RawSeatRow :=
  { exalter := seatNameA, buy := 1000, sell := 200, net_buy := 800
  , buy_rate := 1, sell_rate := 1, reason := reasonA }

def rowDup2 : RawSeatRow :=
  { exalter := seatNameA, buy := 1000, sell := 200, net_buy := 800
  , buy_rate := 1, sell_rate := 1, reason := reasonB }

def rowDistinct : RawSeatRow :=
  { exalter := seatNameA, buy := 999, sell := 200, net_buy := 799
  , buy_rate := 1, sell_rate := 1, reason := reasonA }

def rowZ : RawSeatRow :=
  { exalter := seatNameZ, buy := 500, sell := 500, net_buy := 0
  , buy_rate := 1, sell_rate := 1, reason := reasonA }

def rowN1 : RawSeatRow :=
  { exalter := seatNameA, buy := 0, sell := 1000000, net_buy := -1000000
  , buy_rate := 0, sell_rate := 2, reason := reasonA }

def rowN2 : RawSeatRow :=
  { exalter := seatNameZ, buy := 0, sell := 3000000, net_buy := -3000000
  , buy_rate := 0, sell_rate := 2, reason := reasonA }

def basicZero : BasicInfo := { amount_rate := zeroPctStr }

/-- A seat dict placed in the upstream `buy_seats` array although its net
amount string is strictly negative. -/
def seatC1 : SeatInfo :=
  { seat_name := seatNameA, buy_amount := zeroWanStr, sell_amount := zeroWanStr
  , net_amount := strNeg500, buy_rate := zeroPctStr, sell_rate := zeroPctStr
  , player_info := defaultPlayerInfo seatNameA }

def seatDataC1 : SeatData :=
  { buy_seats := [seatC1], sell_seats := []
  , buy_total := zeroWanStr, sell_total := zeroWanStr }

def stockC1 : Stock :=
  { ts_code := tsCodeA, name := stockNameA, basic_info := basicZero
  , seat_data := seatDataC1 }

def rawC1 : RawData := { stocks := [stockC1] }

/-! ### Claim theorems -/

/-- Claim C9 (confirmed): `build_structured_facts` returns the falsy empty
result (`none` models the empty dict) when the stocks list is missing or
empty rather than raising, and when stocks are present exactly the first
stock is processed and the rest are ignored. -/
theorem C9_builder_empty_and_first_stock (s : Stock) (rest : List Stock) :
    buildStructuredFacts { stocks := [] } = none
    ∧ buildStructuredFacts { stocks := s :: rest } = buildStructuredFacts { stocks := [s] }
    ∧ (buildStructuredFacts { stocks := s :: rest }).isSome = true :=
  ⟨rfl, rfl, rfl⟩

/-- Claim C10 (confirmed): a deduplicated seat row whose net amount is
exactly zero is assigned to the sell-side list (the else-branch of the
`net_buy > 0` test), is never on the buy side — the buy list is exactly
the strictly-positive-net rows — and is not dropped. -/
theorem C10_zero_net_to_sell (rows : List RawSeatRow) (hm : List HmEntry)
    (ps : List (String × ProfileData)) (r : RawSeatRow)
    (hmem : r ∈ dedupRows rows) (hz : r.net_buy = 0) :
    seatInfoOf hm ps r ∈ (processSeatData rows hm ps).sell_seats
    ∧ (processSeatData rows hm ps).buy_seats =
        ((sortRows (dedupRows rows)).filter
          (fun q => decide (0 < q.net_buy))).map (seatInfoOf hm ps)
    ∧ ∀ q ∈ (sortRows (dedupRows rows)).filter (fun q => decide (0 < q.net_buy)),
        0 < q.net_buy := by
  have hne : rows ≠ [] := by
    rintro rfl
    simp [dedupRows, dedupAux] at hmem
  simp only [processSeatData, if_neg hne]
  refine ⟨?_, partitionLoop_fst hm ps _, ?_⟩
  · rw [partitionLoop_snd]
    refine List.mem_map_of_mem _ (List.mem_filter.mpr ⟨?_, ?_⟩)
    · exact (sortRows_perm _).mem_iff.mpr hmem
    · simp [hz]
  · intro q hq
    exact of_decide_eq_true (List.mem_filter.mp hq).2

/-- Witness for C10: a concrete zero-net seat lands in the sell list. -/
theorem C10_zero_net_to_sell_witness :
    seatInfoOf [] [] rowZ ∈ (processSeatData [rowZ] [] []).sell_seats :=
  (C10_zero_net_to_sell [rowZ] [] [] rowZ (by simp [dedupRows, dedupAux]) rfl).1

/-- Claim C4 (confirmed): dedup keeps exactly one row per distinct
`(seat_name, buy, sell, net, buy_rate, sell_rate)` tuple — the seat
entries across both sides (and likewise the downstream `ProcessedPlayer`
entries) number exactly the distinct tuples of the input, rows equal up
to listing reason collapse to one entry, rows differing in an amount or
rate field stay distinct, and dedup is idempotent. -/
theorem C4_dedup_count_and_idem (rows : List RawSeatRow) (hm : List HmEntry)
    (ps : List (String × ProfileData)) (r1 r2 : RawSeatRow) (t : String) :
    ((processSeatData rows hm ps).buy_seats.length
        + (processSeatData rows hm ps).sell_seats.length
        = (rows.map dkey).toFinset.card)
    ∧ dedupRows (dedupRows rows) = dedupRows rows
    ∧ (dkey r1 = dkey r2 → dedupRows [r1, r2] = [r1])
    ∧ (dkey r1 ≠ dkey r2 → dedupRows [r1, r2] = [r1, r2])
    ∧ (analyzeSideData (processSeatData rows hm ps).buy_seats t).players.length
        + (analyzeSideData (processSeatData rows hm ps).sell_seats t).players.length
        = (rows.map dkey).toFinset.card := by
  have hcount : (processSeatData rows hm ps).buy_seats.length
      + (processSeatData rows hm ps).sell_seats.length
      = (rows.map dkey).toFinset.card := by
    by_cases hrows : rows = []
    · subst hrows
      simp [processSeatData]
    · simp only [processSeatData, if_neg hrows]
      rw [partitionLoop_fst, partitionLoop_snd, List.length_map, List.length_map,
        length_filter_add_length_filter_not, sortRows_length, dedupRows_length]
  refine ⟨hcount, dedupRows_idem rows, ?_, ?_, ?_⟩
  · intro h
    simp [dedupRows, dedupAux, h.symm]
  · intro h
    simp [dedupRows, dedupAux, Ne.symm h]
  · rw [analyzeSideData_players_length, analyzeSideData_players_length]
    exact hcount

/-- Witness for C4: rows equal up to listing reason collapse, rows with a
different amount survive distinctly. -/
theorem C4_dedup_count_and_idem_witness :
    dedupRows [rowDup1, rowDup2] = [rowDup1]
    ∧ dedupRows [rowDup1, rowDistinct] = [rowDup1, rowDistinct] :=
  ⟨(C4_dedup_count_and_idem [] [] [] rowDup1 rowDup2 buySideStr).2.2.1 (by decide),
   (C4_dedup_count_and_idem [] [] [] rowDup1 rowDistinct buySideStr).2.2.2.1 (by decide)⟩

/-- Claim C1 (refuted as stated): `build_structured_facts` trusts the
upstream `buy_seats` array — a seat whose net amount string is strictly
negative but which arrives in `buy_seats` is placed in
`long_side_facts.players`, so the output side is not determined solely by
the sign of the net amount. -/
theorem C1_counterexample :
    ((buildStructuredFacts rawC1).map
        (fun f => (f.long_side_facts.players.map PlayerData.seat_name,
          f.short_side_facts.players.length))
      = some ([seatNameA], 0))
    ∧ parseAmountToWan strNeg500 < 0 := by
  have hparse : parseAmountToWan strNeg500 =
      -(((500 : ℕ) : ℚ) + ((0 : ℕ) : ℚ) / 10 ^ (2 : ℕ)) := rfl
  refine ⟨rfl, ?_⟩
  rw [hparse]
  norm_num

/-- Claim C1 (amended): within `_process_seat_data` each deduplicated row
is assigned to exactly one side solely by the sign of its net amount
(strictly positive to buy, otherwise sell) and no row is dropped;
`build_structured_facts` then maps the upstream `buy_seats` and
`sell_seats` arrays verbatim onto the long and short sides without
re-deriving sidedness. -/
theorem C1_sign_partition_and_passthrough (rows : List RawSeatRow)
    (hm : List HmEntry) (ps : List (String × ProfileData))
    (stk : Stock) (rest : List Stock) :
    ((processSeatData rows hm ps).buy_seats =
        ((sortRows (dedupRows rows)).filter
          (fun q => decide (0 < q.net_buy))).map (seatInfoOf hm ps)
      ∧ (processSeatData rows hm ps).sell_seats =
        ((sortRows (dedupRows rows)).filter
          (fun q => !decide (0 < q.net_buy))).map (seatInfoOf hm ps)
      ∧ (processSeatData rows hm ps).buy_seats.length
          + (processSeatData rows hm ps).sell_seats.length
          = (dedupRows rows).length)
    ∧ ((buildStructuredFacts { stocks := stk :: rest }).map
          (fun f => f.long_side_facts.players.map PlayerData.seat_name)
        = some (stk.seat_data.buy_seats.map SeatInfo.seat_name)
      ∧ (buildStructuredFacts { stocks := stk :: rest }).map
          (fun f => f.short_side_facts.players.map PlayerData.seat_name)
        = some (stk.seat_data.sell_seats.map SeatInfo.seat_name)) := by
  constructor
  · by_cases hrows : rows = []
    · subst hrows
      refine ⟨rfl, rfl, rfl⟩
    · simp only [processSeatData, if_neg hrows]
      refine ⟨partitionLoop_fst hm ps _, partitionLoop_snd hm ps _, ?_⟩
      rw [partitionLoop_fst, partitionLoop_snd, List.length_map, List.length_map,
        length_filter_add_length_filter_not, sortRows_length]
  · constructor
    · simp only [buildStructuredFacts, Option.map_some']
      rw [analyzeSideData_players_names]
    · simp only [buildStructuredFacts, Option.map_some']
      rw [analyzeSideData_players_names]

/-- Claim C5 (refuted as stated): the sell-side list is NOT ascending by
net amount — two sell seats with nets −100万 and −300万 come out in the
order [−100, −300] (largest net first), because the single descending
sort happens before the partition. -/
theorem C5_counterexample :
    ((processSeatData [rowN1, rowN2] [] []).sell_seats
        = [seatInfoOf [] [] rowN1, seatInfoOf [] [] rowN2])
    ∧ rowN1.net_buy = -1000000
    ∧ rowN2.net_buy = -3000000
    ∧ ¬ (rowN1.net_buy ≤ rowN2.net_buy) := by
  refine ⟨rfl, rfl, rfl, by decide⟩

/-- Claim C5 (amended): the whole deduplicated row list is sorted
descending by net amount and the partition preserves that order, so both
the buy side and the sell side are ordered descending by net amount (the
sell side therefore starts with its least-negative seat). -/
theorem C5_descending_both_sides (rows : List RawSeatRow) (hm : List HmEntry)
    (ps : List (String × ProfileData)) :
    ((sortRows (dedupRows rows)).Pairwise (fun a b => b.net_buy ≤ a.net_buy))
    ∧ (processSeatData rows hm ps).buy_seats =
        ((sortRows (dedupRows rows)).filter
          (fun q => decide (0 < q.net_buy))).map (seatInfoOf hm ps)
    ∧ (processSeatData rows hm ps).sell_seats =
        ((sortRows (dedupRows rows)).filter
          (fun q => !decide (0 < q.net_buy))).map (seatInfoOf hm ps)
    ∧ (((sortRows (dedupRows rows)).filter
          (fun q => decide (0 < q.net_buy))).Pairwise
        (fun a b => b.net_buy ≤ a.net_buy))
    ∧ (((sortRows (dedupRows rows)).filter
          (fun q => !decide (0 < q.net_buy))).Pairwise
        (fun a b => b.net_buy ≤ a.net_buy)) := by
  have hsorted := sortRows_sorted (dedupRows rows)
  refine ⟨hsorted, ?_, ?_, hsorted.filter _, hsorted.filter _⟩
  · by_cases hrows : rows = []
    · subst hrows; rfl
    · simp only [processSeatData, if_neg hrows]
      exact partitionLoop_fst hm ps _
  · by_cases hrows : rows = []
    · subst hrows; rfl
    · simp only [processSeatData, if_neg hrows]
      exact partitionLoop_snd hm ps _

/-! ### Claim C2: seat classification -/

theorem identifyLoop_no_match (sn : String) (ps : List (String × ProfileData))
    (pi : PlayerInfo) (hm : List HmEntry)
    (h : ∀ e ∈ hm, ∀ orgs, e.orgs = some orgs →
      ∀ o ∈ orgs, orgMatches sn o = false) :
    identifyLoop sn ps pi hm = pi := by
  induction hm generalizing pi with
  | nil => rfl
  | cons e rest ih =>
    have hrest : ∀ e2 ∈ rest, ∀ orgs, e2.orgs = some orgs →
        ∀ o ∈ orgs, orgMatches sn o = false :=
      fun e2 he2 => h e2 (List.mem_cons_of_mem _ he2)
    unfold identifyLoop
    cases horgs : e.orgs with
    | none => exact ih pi hrest
    | some orgs =>
      have hfind : orgs.find? (fun org => orgMatches sn org) = none :=
        List.find?_eq_none.mpr
          (fun o ho => by simp [h e (List.mem_cons_self e rest) orgs horgs o ho])
      simp only [hfind]
      by_cases hd : pi.type = ordinaryStr ∨ pi.type = markerStr
      · simp only [if_pos hd]
        exact ih pi hrest
      · simp only [if_neg hd]

/-- A marker-containing seat name with no registry hit. -/
def seatNameMarkerC2 : String := "华鑫证券有限责任公司机构专用"

/-- The spec's own no-marker example name. -/
def seatNameNoMarkerC2 : String := "中国国际金融股份有限公司机构客户部"

/-- Claim C2 (refuted as stated): a seat name containing the literal
marker 机构专用 with no registry match is typed with the marker string
机构专用 itself, not the institution category 机构 the claim states. -/
theorem C2_counterexample :
    containsSub markerStr seatNameMarkerC2 = true
    ∧ (identifyPlayer seatNameMarkerC2 [] []).type = markerStr
    ∧ (identifyPlayer seatNameMarkerC2 [] []).type ≠ jigouStr := by
  refine ⟨by decide, rfl, by decide⟩

/-- Claim C2 (amended): with no registry match, a seat name containing
the literal 机构专用 marker gets the default profile whose type is the
marker string 机构专用 (not 机构); without the marker the default is the
ordinary-seat profile 普通席位 with placeholder description and style. -/
theorem C2_marker_and_default_classification (sn : String) (hm : List HmEntry)
    (ps : List (String × ProfileData))
    (h : ∀ e ∈ hm, ∀ orgs, e.orgs = some orgs →
      ∀ o ∈ orgs, orgMatches sn o = false) :
    (containsSub markerStr sn = true →
      identifyPlayer sn hm ps =
        { name := ordinaryStr, type := markerStr, description := noInfoStr
        , style := StyleVal.tags [styleUnknownStr] })
    ∧ (containsSub markerStr sn = false →
      identifyPlayer sn hm ps =
        { name := ordinaryStr, type := ordinaryStr, description := noInfoStr
        , style := StyleVal.tags [styleUnknownStr] }) := by
  constructor <;> intro hc <;>
    rw [identifyPlayer, identifyLoop_no_match sn ps _ hm h] <;>
    simp [defaultPlayerInfo, hc]

/-- Witness for C2 (amended) at the spec's own example name. -/
theorem C2_marker_and_default_classification_witness :
    identifyPlayer seatNameNoMarkerC2 [] [] =
      { name := ordinaryStr, type := ordinaryStr, description := noInfoStr
      , style := StyleVal.tags [styleUnknownStr] } :=
  (C2_marker_and_default_classification seatNameNoMarkerC2 [] [] (by simp)).2
    (by decide)

/-! ### Claim C3: amount formatter and parser round-trip -/

theorem rhe_eq_of_lt_half {q : ℚ} {f : ℤ} (hf : ⌊q⌋ = f) (h : q - (f : ℚ) < 1 / 2) :
    rhe q = f := by
  unfold rhe
  rw [hf, if_pos h]

theorem rhe_eq_of_half_lt {q : ℚ} {f : ℤ} (hf : ⌊q⌋ = f) (h : 1 / 2 < q - (f : ℚ)) :
    rhe q = f + 1 := by
  unfold rhe
  rw [hf, if_neg (by linarith), if_pos h]

def strP005 : String := "0.05万元"
def strP150w : String := "1.50万元"
def strP10000w : String := "100.00万元"
def strP150y : String := "1.50亿元"

theorem formatAmount_500 : formatAmount 500 = strP005 := by
  have habs : |(500 : ℚ) / 10000| * 100 = ((5 : ℤ) : ℚ) := by
    rw [abs_of_nonneg (by norm_num : (0 : ℚ) ≤ (500 : ℚ) / 10000)]
    push_cast
    norm_num
  unfold formatAmount
  rw [if_neg (by norm_num), if_pos (by norm_num)]
  simp only [fmt2]
  rw [habs, rhe_intCast, if_neg (by norm_num)]
  rfl

theorem formatAmount_15000 : formatAmount 15000 = strP150w := by
  have habs : |(15000 : ℚ) / 10000| * 100 = ((150 : ℤ) : ℚ) := by
    rw [abs_of_nonneg (by norm_num : (0 : ℚ) ≤ (15000 : ℚ) / 10000)]
    push_cast
    norm_num
  unfold formatAmount
  rw [if_neg (by norm_num), if_pos (by norm_num)]
  simp only [fmt2]
  rw [habs, rhe_intCast, if_neg (by norm_num)]
  rfl

theorem formatAmount_999999 : formatAmount 999999 = strP10000w := by
  have habs : |(999999 : ℚ) / 10000| * 100 = 999999 / 100 := by
    rw [abs_of_nonneg (by norm_num : (0 : ℚ) ≤ (999999 : ℚ) / 10000)]
    norm_num
  have hfloor : ⌊(999999 : ℚ) / 100⌋ = 9999 := by
    rw [Int.floor_eq_iff]
    constructor <;> push_cast <;> norm_num
  have hhalf : (1 : ℚ) / 2 < (999999 : ℚ) / 100 - ((9999 : ℤ) : ℚ) := by
    push_cast
    norm_num
  unfold formatAmount
  rw [if_neg (by norm_num), if_pos (by norm_num)]
  simp only [fmt2]
  rw [habs, rhe_eq_of_half_lt hfloor hhalf, if_neg (by norm_num)]
  rfl

theorem formatAmount_150000000 : formatAmount 150000000 = strP150y := by
  have habs : |(150000000 : ℚ) / 100000000| * 100 = ((150 : ℤ) : ℚ) := by
    rw [abs_of_nonneg (by norm_num : (0 : ℚ) ≤ (150000000 : ℚ) / 100000000)]
    push_cast
    norm_num
  unfold formatAmount
  rw [if_neg (by norm_num), if_neg (by norm_num)]
  simp only [fmt2]
  rw [habs, rhe_intCast, if_neg (by norm_num)]
  rfl

theorem parse_strP005 : parseAmountToWan strP005 = 1 / 20 := by
  have h : parseAmountToWan strP005 = ((0 : ℕ) : ℚ) + ((5 : ℕ) : ℚ) / 10 ^ (2 : ℕ) := rfl
  rw [h]
  norm_num

theorem parse_strP150w : parseAmountToWan strP150w = 3 / 2 := by
  have h : parseAmountToWan strP150w = ((1 : ℕ) : ℚ) + ((50 : ℕ) : ℚ) / 10 ^ (2 : ℕ) := rfl
  rw [h]
  norm_num

theorem parse_strP10000w : parseAmountToWan strP10000w = 100 := by
  have h : parseAmountToWan strP10000w =
      ((100 : ℕ) : ℚ) + ((0 : ℕ) : ℚ) / 10 ^ (2 : ℕ) := rfl
  rw [h]
  norm_num

theorem parse_strP150y : parseAmountToWan strP150y = 15000 := by
  have h : parseAmountToWan strP150y =
      (((1 : ℕ) : ℚ) + ((50 : ℕ) : ℚ) / 10 ^ (2 : ℕ)) * 10000 := rfl
  rw [h]
  norm_num

/-- Claim C3 (refuted as stated): `_format_amount` rounds to two decimals
of 万元, so 999999 yuan formats as 100.00万元 and parses back to
1,000,000 yuan — an error of one yuan, far beyond one cent. -/
theorem C3_counterexample :
    formatAmount 999999 = strP10000w
    ∧ parseAmountToWan (formatAmount 999999) * 10000 = 1000000
    ∧ ¬ (|parseAmountToWan (formatAmount 999999) * 10000 - 999999| ≤ 1 / 100) := by
  refine ⟨formatAmount_999999, ?_, ?_⟩
  · rw [formatAmount_999999, parse_strP10000w]
    norm_num
  · rw [formatAmount_999999, parse_strP10000w]
    norm_num

/-- Claim C3 (amended): the round-trip is exact (hence within one cent)
for 500 and 15000 yuan in the 万元 display range and for 亿元-range
values that are whole multiples of 0.01亿 such as 150,000,000 yuan; it is
not within one cent for general values (see the counterexample). -/
theorem C3_roundtrip_exact_cases :
    parseAmountToWan (formatAmount 500) * 10000 = 500
    ∧ parseAmountToWan (formatAmount 15000) * 10000 = 15000
    ∧ parseAmountToWan (formatAmount 150000000) * 10000 = 150000000 := by
  refine ⟨?_, ?_, ?_⟩
  · rw [formatAmount_500, parse_strP005]
    norm_num
  · rw [formatAmount_15000, parse_strP150w]
    norm_num
  · rw [formatAmount_150000000, parse_strP150y]
    norm_num

/-! ### Claims C6 and C7: concentration metrics -/

def concListC7 : List ℚ := [650, 410, 50, 30, 10]

def negPairC6 : List ℚ := [100, -50]

theorem round1_top1_concListC7 : round1 ((650 : ℚ) / 1150 * 100) = 56.5 := by
  have hx : (650 : ℚ) / 1150 * 100 * 10 = 13000 / 23 := by norm_num
  have hfloor : ⌊(13000 : ℚ) / 23⌋ = 565 := by
    rw [Int.floor_eq_iff]
    constructor <;> push_cast <;> norm_num
  have hhalf : (13000 : ℚ) / 23 - ((565 : ℤ) : ℚ) < 1 / 2 := by
    push_cast
    norm_num
  unfold round1
  rw [hx, rhe_eq_of_lt_half hfloor hhalf]
  norm_num

theorem round1_top2_concListC7 : round1 ((1060 : ℚ) / 1150 * 100) = 92.2 := by
  have hx : (1060 : ℚ) / 1150 * 100 * 10 = 21200 / 23 := by norm_num
  have hfloor : ⌊(21200 : ℚ) / 23⌋ = 921 := by
    rw [Int.floor_eq_iff]
    constructor <;> push_cast <;> norm_num
  have hhalf : (1 : ℚ) / 2 < (21200 : ℚ) / 23 - ((921 : ℤ) : ℚ) := by
    push_cast
    norm_num
  unfold round1
  rw [hx, rhe_eq_of_half_lt hfloor hhalf]
  norm_num

theorem round1_full : round1 ((1150 : ℚ) / 1150 * 100) = 100 := by
  rw [show (1150 : ℚ) / 1150 * 100 = 100 by norm_num]
  exact round1_hundred

theorem calcConc_concListC7 :
    calculateConcentrationMetrics concListC7 =
      { top1_pct := 56.5, top2_pct := 92.2, top5_pct := 100 } := by
  have hsort : sortDescQ concListC7 = concListC7 := by decide
  have hsum : concListC7.sum = 1150 := by norm_num [concListC7]
  simp only [calculateConcentrationMetrics]
  rw [if_neg (by decide), hsort, hsum, if_neg (by norm_num)]
  rw [if_pos (by decide : 1 ≤ concListC7.length),
    if_pos (by decide : 2 ≤ concListC7.length),
    if_pos (by decide : 5 ≤ concListC7.length)]
  rw [show concListC7.headD 0 = 650 from rfl,
    show concListC7.take 2 = [650, 410] from rfl,
    show concListC7.take 5 = concListC7 from rfl,
    show ([(650 : ℚ), 410]).sum = 1060 by norm_num, hsum]
  simp only [ConcMetrics.mk.injEq]
  exact ⟨round1_top1_concListC7, round1_top2_concListC7, round1_full⟩

/-- Claim C7 (confirmed): the concentration formula — zeros for an empty
list or a zero total, otherwise sorted-descending top-1/2/5 shares of the
total, each rounded to one decimal; on [650, 410, 50, 30, 10] this gives
56.5, 92.2 and 100.0. -/
theorem C7_concentration_formula (amounts : List ℚ) (hne : amounts ≠ [])
    (htot : amounts.sum ≠ 0) :
    calculateConcentrationMetrics [] =
      { top1_pct := 0, top2_pct := 0, top5_pct := 0 }
    ∧ (∀ l : List ℚ, l.sum = 0 → calculateConcentrationMetrics l =
        { top1_pct := 0, top2_pct := 0, top5_pct := 0 })
    ∧ calculateConcentrationMetrics amounts =
        { top1_pct := round1 ((sortDescQ amounts).headD 0 / amounts.sum * 100)
        , top2_pct := round1 (((sortDescQ amounts).take (min 2 amounts.length)).sum
            / amounts.sum * 100)
        , top5_pct := round1 (((sortDescQ amounts).take (min 5 amounts.length)).sum
            / amounts.sum * 100) }
    ∧ calculateConcentrationMetrics concListC7 =
        { top1_pct := 56.5, top2_pct := 92.2, top5_pct := 100 } := by
  refine ⟨rfl, ?_, ?_, calcConc_concListC7⟩
  · intro l hsum
    unfold calculateConcentrationMetrics
    by_cases hl : l = []
    · rw [if_pos hl]
    · rw [if_neg hl, if_pos hsum]
  · have h1 : 1 ≤ (sortDescQ amounts).length := by
      rw [sortDescQ_length]
      exact List.length_pos.mpr hne
    simp only [calculateConcentrationMetrics]
    rw [if_neg hne, if_neg htot, if_pos h1]
    simp only [ConcMetrics.mk.injEq]
    refine ⟨trivial, ?_, ?_⟩
    · have h : (if 2 ≤ (sortDescQ amounts).length
          then ((sortDescQ amounts).take 2).sum else (sortDescQ amounts).sum)
          = ((sortDescQ amounts).take (min 2 amounts.length)).sum := by
        by_cases h2 : 2 ≤ (sortDescQ amounts).length
        · rw [if_pos h2, Nat.min_eq_left (by rwa [sortDescQ_length] at h2)]
        · rw [if_neg h2,
            Nat.min_eq_right (by rw [sortDescQ_length] at h2; omega),
            ← sortDescQ_length amounts, List.take_length]
      rw [h]
    · have h : (if 5 ≤ (sortDescQ amounts).length
          then ((sortDescQ amounts).take 5).sum else (sortDescQ amounts).sum)
          = ((sortDescQ amounts).take (min 5 amounts.length)).sum := by
        by_cases h5 : 5 ≤ (sortDescQ amounts).length
        · rw [if_pos h5, Nat.min_eq_left (by rwa [sortDescQ_length] at h5)]
        · rw [if_neg h5,
            Nat.min_eq_right (by rw [sortDescQ_length] at h5; omega),
            ← sortDescQ_length amounts, List.take_length]
      rw [h]

/-- Witness for C7 at the spec's concrete example list. -/
theorem C7_concentration_formula_witness :
    calculateConcentrationMetrics concListC7 =
      { top1_pct := 56.5, top2_pct := 92.2, top5_pct := 100 } :=
  (C7_concentration_formula concListC7 (by decide)
    (by norm_num [concListC7])).2.2.2

theorem calcConc_negPairC6 :
    calculateConcentrationMetrics negPairC6 =
      { top1_pct := 200, top2_pct := 100, top5_pct := 100 } := by
  have hsort : sortDescQ negPairC6 = negPairC6 := by decide
  have hsum : negPairC6.sum = 50 := by norm_num [negPairC6]
  simp only [calculateConcentrationMetrics]
  rw [if_neg (by decide), hsort, hsum, if_neg (by norm_num)]
  rw [if_pos (by decide : 1 ≤ negPairC6.length),
    if_pos (by decide : 2 ≤ negPairC6.length),
    if_neg (by decide : ¬ 5 ≤ negPairC6.length)]
  rw [show negPairC6.headD 0 = 100 from rfl,
    show negPairC6.take 2 = negPairC6 from rfl, hsum]
  simp only [ConcMetrics.mk.injEq]
  refine ⟨?_, ?_, ?_⟩
  · rw [show (100 : ℚ) / 50 * 100 = 200 by norm_num]
    unfold round1
    rw [show (200 : ℚ) * 10 = ((2000 : ℤ) : ℚ) by push_cast; norm_num,
      rhe_intCast]
    norm_num
  · rw [show (50 : ℚ) / 50 * 100 = 100 by norm_num]
    exact round1_hundred
  · rw [show (50 : ℚ) / 50 * 100 = 100 by norm_num]
    exact round1_hundred

/-- Claim C6 (refuted as stated): on the amount list [100, −50] the
calculator returns top1 = 200 and top2 = 100, so neither top1 ≤ top2 nor
top1 ≤ 100 holds — the claimed chain fails for lists with negative
amounts. -/
theorem C6_counterexample :
    (calculateConcentrationMetrics negPairC6).top1_pct = 200
    ∧ (calculateConcentrationMetrics negPairC6).top2_pct = 100
    ∧ ¬ ((calculateConcentrationMetrics negPairC6).top1_pct
        ≤ (calculateConcentrationMetrics negPairC6).top2_pct)
    ∧ ¬ ((calculateConcentrationMetrics negPairC6).top1_pct ≤ 100) := by
  have h := calcConc_negPairC6
  refine ⟨by rw [h], by rw [h], by rw [h]; norm_num, by rw [h]; norm_num⟩

/-- Claim C6 (amended): for every non-empty list of nonnegative amounts
the returned percentages satisfy 0 ≤ top1 ≤ top2 ≤ top5 ≤ 100. -/
theorem C6_concentration_chain (amounts : List ℚ) (hne : amounts ≠ [])
    (hpos : ∀ a ∈ amounts, 0 ≤ a) :
    0 ≤ (calculateConcentrationMetrics amounts).top1_pct
    ∧ (calculateConcentrationMetrics amounts).top1_pct
        ≤ (calculateConcentrationMetrics amounts).top2_pct
    ∧ (calculateConcentrationMetrics amounts).top2_pct
        ≤ (calculateConcentrationMetrics amounts).top5_pct
    ∧ (calculateConcentrationMetrics amounts).top5_pct ≤ 100 := by
  simp only [calculateConcentrationMetrics]
  rw [if_neg hne]
  by_cases htot : amounts.sum = 0
  · rw [if_pos htot]
    norm_num
  · rw [if_neg htot]
    have hlpos : ∀ a ∈ sortDescQ amounts, 0 ≤ a :=
      fun a ha => hpos a (sortDescQ_mem ha)
    have hlen1 : 1 ≤ (sortDescQ amounts).length := by
      rw [sortDescQ_length]
      exact List.length_pos.mpr hne
    have hsum : (sortDescQ amounts).sum = amounts.sum := sortDescQ_sum amounts
    have htpos : 0 < amounts.sum :=
      lt_of_le_of_ne (hsum ▸ list_sum_nonneg hlpos) (Ne.symm htot)
    have h0 : 0 ≤ (sortDescQ amounts).headD 0 := by
      cases hl : sortDescQ amounts with
      | nil => simp
      | cons a t => exact hpos a (sortDescQ_mem (hl ▸ List.mem_cons_self a t))
    have h1 : (sortDescQ amounts).headD 0
        ≤ (if 2 ≤ (sortDescQ amounts).length
            then ((sortDescQ amounts).take 2).sum else (sortDescQ amounts).sum) := by
      by_cases h2 : 2 ≤ (sortDescQ amounts).length
      · rw [if_pos h2]
        cases hl : sortDescQ amounts with
        | nil => rw [hl] at h2; simp at h2
        | cons a t =>
          cases ht : t with
          | nil => rw [hl, ht] at h2; simp at h2
          | cons b t2 =>
            have hb : 0 ≤ b := hlpos b (by rw [hl, ht]; simp)
            rw [show List.take 2 (a :: b :: t2) = [a, b] from rfl]
            simp only [List.headD, List.sum_cons, List.sum_nil]
            linarith
      · rw [if_neg h2]
        cases hl : sortDescQ amounts with
        | nil => rw [hl] at hlen1; simp at hlen1
        | cons a t =>
          cases ht : t with
          | nil => simp
          | cons b t2 =>
            rw [hl, ht] at h2
            simp at h2
    have h25 : (if 2 ≤ (sortDescQ amounts).length
          then ((sortDescQ amounts).take 2).sum else (sortDescQ amounts).sum)
        ≤ (if 5 ≤ (sortDescQ amounts).length
            then ((sortDescQ amounts).take 5).sum else (sortDescQ amounts).sum) := by
      by_cases h5 : 5 ≤ (sortDescQ amounts).length
      · rw [if_pos h5, if_pos (by omega)]
        exact sum_take_mono hlpos (by omega)
      · rw [if_neg h5]
        by_cases h2 : 2 ≤ (sortDescQ amounts).length
        · rw [if_pos h2]
          exact sum_take_le_sum hlpos 2
        · rw [if_neg h2]
    have h5t : (if 5 ≤ (sortDescQ amounts).length
          then ((sortDescQ amounts).take 5).sum else (sortDescQ amounts).sum)
        ≤ amounts.sum := by
      by_cases h5 : 5 ≤ (sortDescQ amounts).length
      · rw [if_pos h5, ← hsum]
        exact sum_take_le_sum hlpos 5
      · rw [if_neg h5, hsum]
    rw [if_pos hlen1]
    refine ⟨?_, ?_, ?_, ?_⟩
    · exact round1_nonneg (by positivity)
    · refine round1_mono ?_
      have := (div_le_div_right htpos).mpr h1
      exact mul_le_mul_of_nonneg_right this (by norm_num)
    · refine round1_mono ?_
      have := (div_le_div_right htpos).mpr h25
      exact mul_le_mul_of_nonneg_right this (by norm_num)
    · refine round1_le_hundred ?_
      rw [div_mul_eq_mul_div, div_le_iff htpos]
      linarith

/-- Witness for C6 (amended) at a concrete nonnegative list. -/
theorem C6_concentration_chain_witness :
    0 ≤ (calculateConcentrationMetrics concListC7).top1_pct
    ∧ (calculateConcentrationMetrics concListC7).top1_pct
        ≤ (calculateConcentrationMetrics concListC7).top2_pct
    ∧ (calculateConcentrationMetrics concListC7).top2_pct
        ≤ (calculateConcentrationMetrics concListC7).top5_pct
    ∧ (calculateConcentrationMetrics concListC7).top5_pct ≤ 100 :=
  C6_concentration_chain concListC7 (by decide)
    (by intro a ha; fin_cases ha <;> norm_num)

/-! ### Claim C8: battle metrics -/

def emptyConc : ConcMetrics := { top1_pct := 0, top2_pct := 0, top5_pct := 0 }

def sideNegC8 : SideFacts :=
  { total_amount_wan := -1, player_count := 0, famous_player_count := 0
  , concentration_metrics := emptyConc, contribution_by_type := [], players := [] }

def sideZeroC8 : SideFacts :=
  { total_amount_wan := 0, player_count := 0, famous_player_count := 0
  , concentration_metrics := emptyConc, contribution_by_type := [], players := [] }

def sideThirtyC8 : SideFacts :=
  { total_amount_wan := 30, player_count := 0, famous_player_count := 0
  , concentration_metrics := emptyConc, contribution_by_type := [], players := [] }

def sideTenC8 : SideFacts :=
  { total_amount_wan := 10, player_count := 0, famous_player_count := 0
  , concentration_metrics := emptyConc, contribution_by_type := [], players := [] }

/-- Claim C8 (refuted as stated): with side totals −1 and 0 the combined
total is −1, nonzero, yet the code returns net_advantage_pct = 0 while
the claimed formula gives −100: the code uses a strictly-positive test on
the combined total, not a nonzero test. -/
theorem C8_counterexample :
    (calculateBattleMetrics sideNegC8 sideZeroC8 basicZero).net_advantage_pct = 0
    ∧ sideNegC8.total_amount_wan + sideZeroC8.total_amount_wan ≠ 0
    ∧ round1 (|sideNegC8.total_amount_wan - sideZeroC8.total_amount_wan|
        / (sideNegC8.total_amount_wan + sideZeroC8.total_amount_wan) * 100) = -100 := by
  have ht : sideNegC8.total_amount_wan = -1 := rfl
  have hz : sideZeroC8.total_amount_wan = 0 := rfl
  refine ⟨?_, ?_, ?_⟩
  · simp only [calculateBattleMetrics]
    rw [ht, hz, if_neg (by norm_num : ¬ (0 : ℚ) < -1 + 0), round1_zero]
  · rw [ht, hz]
    norm_num
  · rw [ht, hz, show (-1 : ℚ) - 0 = -1 from by norm_num, abs_neg, abs_one,
      show (1 : ℚ) / (-1 + 0) * 100 = -100 from by norm_num]
    unfold round1
    rw [show (-100 : ℚ) * 10 = ((-1000 : ℤ) : ℚ) from by push_cast; norm_num,
      rhe_intCast]
    norm_num

/-- Claim C8 (amended): the winner tag is 平局 (tie) iff the net
advantage is exactly 0, 多方 (long) iff strictly positive, 空方 (short)
iff strictly negative; net_advantage_wan is the rounded difference; and
net_advantage_pct is the rounded percentage formula when the combined
total is strictly positive but 0.0 whenever the combined total is zero or
negative. -/
theorem C8_battle_winner_and_pct (longS shortS : SideFacts) (b : BasicInfo) :
    ((calculateBattleMetrics longS shortS b).winner = pingJuStr
        ↔ longS.total_amount_wan - shortS.total_amount_wan = 0)
    ∧ ((calculateBattleMetrics longS shortS b).winner = duoFangStr
        ↔ 0 < longS.total_amount_wan - shortS.total_amount_wan)
    ∧ ((calculateBattleMetrics longS shortS b).winner = kongFangStr
        ↔ longS.total_amount_wan - shortS.total_amount_wan < 0)
    ∧ (calculateBattleMetrics longS shortS b).net_advantage_wan
        = round1 (longS.total_amount_wan - shortS.total_amount_wan)
    ∧ (0 < longS.total_amount_wan + shortS.total_amount_wan →
        (calculateBattleMetrics longS shortS b).net_advantage_pct =
          round1 (|longS.total_amount_wan - shortS.total_amount_wan|
            / (longS.total_amount_wan + shortS.total_amount_wan) * 100))
    ∧ (longS.total_amount_wan + shortS.total_amount_wan ≤ 0 →
        (calculateBattleMetrics longS shortS b).net_advantage_pct = 0) := by
  simp only [calculateBattleMetrics]
  refine ⟨?_, ?_, ?_, trivial, ?_, ?_⟩
  · rcases lt_trichotomy (longS.total_amount_wan - shortS.total_amount_wan) 0
      with hlt | heq | hgt
    · rw [if_neg (by linarith), if_pos hlt]
      exact iff_of_false (by decide) (ne_of_lt hlt)
    · rw [if_neg (by linarith), if_neg (by linarith)]
      exact iff_of_true rfl heq
    · rw [if_pos hgt]
      exact iff_of_false (by decide) (ne_of_gt hgt)
  · rcases lt_trichotomy (longS.total_amount_wan - shortS.total_amount_wan) 0
      with hlt | heq | hgt
    · rw [if_neg (by linarith), if_pos hlt]
      exact iff_of_false (by decide) (by linarith)
    · rw [if_neg (by linarith), if_neg (by linarith)]
      exact iff_of_false (by decide) (by linarith)
    · rw [if_pos hgt]
      exact iff_of_true rfl hgt
  · rcases lt_trichotomy (longS.total_amount_wan - shortS.total_amount_wan) 0
      with hlt | heq | hgt
    · rw [if_neg (by linarith), if_pos hlt]
      exact iff_of_true rfl hlt
    · rw [if_neg (by linarith), if_neg (by linarith)]
      exact iff_of_false (by decide) (by linarith)
    · rw [if_pos hgt]
      exact iff_of_false (by decide) (by linarith)
  · intro h
    rw [if_pos h]
  · intro h
    rw [if_neg (not_lt.mpr h), round1_zero]

/-- Witness for C8 (amended) at side totals 30 and 10. -/
theorem C8_battle_winner_and_pct_witness :
    (calculateBattleMetrics sideThirtyC8 sideTenC8 basicZero).winner = duoFangStr
    ∧ (calculateBattleMetrics sideThirtyC8 sideTenC8 basicZero).net_advantage_pct
        = round1 (|sideThirtyC8.total_amount_wan - sideTenC8.total_amount_wan|
            / (sideThirtyC8.total_amount_wan + sideTenC8.total_amount_wan) * 100) :=
  ⟨(C8_battle_winner_and_pct sideThirtyC8 sideTenC8 basicZero).2.1.mpr
      (by norm_num [sideThirtyC8, sideTenC8]),
   (C8_battle_winner_and_pct sideThirtyC8 sideTenC8 basicZero).2.2.2.2.1
      (by norm_num [sideThirtyC8, sideTenC8])⟩

end DT
